import Mathlib

/-!
Shallow embedding of the FSRS spaced-repetition scheduling code of
the-learning-app: the `flashcard-review` edge function (rating validation,
`dbToCard`, `stateToString`, the update/insert pipeline) and the
`flashcard-due` preview handler, together with the scheduling engine the
two handlers invoke.  The engine itself (the external `ts-fsrs` library)
is not part of the repository's sources, so its operations are modelled
from the specification, as marked on each definition.
-/

namespace TLApp

/-- Rating, one of the four values a learner supplies:
Again(1) / Hard(2) / Good(3) / Easy(4). -/
inductive Rating
  | Again
  | Hard
  | Good
  | Easy
deriving DecidableEq

/-- Card lifecycle state: New / Learning / Review / Relearning. -/
inductive CardState
  | New
  | Learning
  | Review
  | Relearning
deriving DecidableEq

/-- A single flashcard's memory state, mirroring the ts-fsrs `Card` record
used by `flashcard-review/index.ts`.  Timestamps are real numbers counting
days since an arbitrary epoch. -/
structure Card where
  due : ℝ
  stability : ℝ
  difficulty : ℝ
  elapsed_days : ℕ
  scheduled_days : ℕ
  reps : ℕ
  lapses : ℕ
  state : CardState
  last_review : Option ℝ
  learning_steps : ℕ

/-- Immutable record of one review event (before-snapshot plus the chosen
interval), mirroring the ts-fsrs `ReviewLog`. -/
structure ReviewLog where
  rating : Rating
  state : CardState
  due : ℝ
  stability : ℝ
  difficulty : ℝ
  elapsed_days : ℕ
  scheduled_days : ℕ
  review : ℝ

/-- One schedule candidate: the resulting card and its review log. -/
structure RecordLogItem where
  card : Card
  log : ReviewLog

/-- Scheduler parameter set, mirroring the `generatorParameters` argument
of both handlers: 19-element weight vector, target retention, maximum
interval in days, fuzz toggle, short-term-step toggle. -/
structure Params where
  request_retention : ℝ
  maximum_interval : ℕ
  enable_fuzz : Bool
  enable_short_term : Bool
  w : List ℝ

/-- The explicit 19-element weight vector the review handler passes to
`generatorParameters` (flashcard-review/index.ts lines 119-122). -/
def reviewW : List ℝ :=
  [0.4072, 1.1829, 3.1262, 15.4722, 7.2102, 0.5316, 1.0651, 0.0234, 1.616,
   0.1544, 1.0824, 1.9813, 0.0953, 0.2975, 2.2042, 0.2407, 2.9466, 0.5034, 0.6567]

/-- Modelled from the spec: the preview handler calls `generatorParameters`
without a `w` field, so the external library's default weight vector
applies.  The library's source is not in the repository; the spec records
that this default differs from the review path's explicit vector ("the
source mixes two different default weight vectors across its review and
preview code paths"), and the values here are the library's published
FSRS-5 defaults. -/
def defaultW : List ℝ :=
  [0.40255, 1.18385, 3.173, 15.69105, 7.1949, 0.5345, 1.4604, 0.0046, 1.54575,
   0.1192, 1.01925, 1.9395, 0.11, 0.29605, 2.2698, 0.2315, 2.9898, 0.51655, 0.6621]

/-- The parameter set of the review code path
(flashcard-review/index.ts lines 114-123). -/
def reviewParams : Params :=
  { request_retention := 0.9
    maximum_interval := 36500
    enable_fuzz := true
    enable_short_term := false
    w := reviewW }

/-- The parameter set of the preview code path
(flashcard-due/index.ts lines 228-233): same configuration flags, but no
explicit `w`, hence the library default vector. -/
def previewParams : Params :=
  { request_retention := 0.9
    maximum_interval := 36500
    enable_fuzz := true
    enable_short_term := false
    w := defaultW }

/-- Weight lookup, 0-based as in the library. -/
def W (p : Params) (i : ℕ) : ℝ := p.w.getD i 0

/-- Numeric value of a rating (Again = 1 .. Easy = 4). -/
def gradeNat : Rating → ℕ
  | Rating.Again => 1
  | Rating.Hard => 2
  | Rating.Good => 3
  | Rating.Easy => 4

/-- Modelled from the spec: `initialStability(rating)` — starting stability
for a brand-new card, indexed by the first rating given (`w[g-1]`), kept
positive per the numeric contract of §4.1. -/
def initStability (p : Params) (g : Rating) : ℝ :=
  max (W p (gradeNat g - 1)) 0.1

/-- Difficulty clamp to the configured bounds (practically 1..10, §3). -/
noncomputable def clampD (x : ℝ) : ℝ := min 10 (max 1 x)

/-- Modelled from the spec: `initialDifficulty(rating)` before clamping —
the FSRS formula `w4 - e^(w5 * (g - 1)) + 1`. -/
noncomputable def initDifficultyBase (p : Params) (g : Rating) : ℝ :=
  W p 4 - Real.exp (W p 5 * ((gradeNat g : ℝ) - 1)) + 1

/-- Modelled from the spec: `initialDifficulty(rating)` — starting
difficulty for a new card, clamped to the valid range (§4.1). -/
noncomputable def initDifficulty (p : Params) (g : Rating) : ℝ :=
  clampD (initDifficultyBase p g)

/-- Modelled from the spec: `nextDifficulty(difficulty, rating)` — a
mean-reversion update pulling difficulty toward a rating-dependent target,
clamped to range (§4.1); the FSRS linear-damping and mean-reversion
formulas instantiate that description. -/
noncomputable def nextDifficulty (p : Params) (d : ℝ) (g : Rating) : ℝ :=
  clampD (W p 7 * initDifficultyBase p Rating.Easy +
    (1 - W p 7) * (d + (-(W p 6) * ((gradeNat g : ℝ) - 3)) * (10 - d) / 9))

/-- Modelled from the spec: `retrievability(stability, elapsedDays)` — the
decay curve, an inverse power-law of elapsed time over stability calibrated
so that retrievability at `elapsed_days == stability` equals the target
retention 0.9 (§4.1): `(1 + (19/81) * t / s) ^ (-1/2)`. -/
noncomputable def retrievability (s t : ℝ) : ℝ :=
  1 / Real.sqrt (1 + 19 / 81 * (t / s))

/-- Modelled from the spec: the factor solving the decay curve for the
elapsed time at which retrievability drops to the target retention:
`t = s * (retention⁻² - 1) * 81/19` (§4.1).  Equals 1 at retention 0.9. -/
noncomputable def intervalModifier (p : Params) : ℝ :=
  (p.request_retention⁻¹ ^ 2 - 1) * (81 / 19)

/-- Modelled from the spec: `nextInterval(stability)` before fuzz — solve
the decay curve for the target retention, round to whole days, clamp to
`[1, maximumInterval]` (§4.1). -/
noncomputable def nextIntervalRaw (p : Params) (s : ℝ) : ℕ :=
  (min (max (round (s * intervalModifier p)) 1) (p.maximum_interval : ℤ)).toNat

/-- Modelled from the spec: the optional fuzz step — a pseudo-random jitter
`fz` applied to the rounded interval, which must not move the interval
outside `[1, maximumInterval]` (§4.1).  The jitter itself is a parameter
of the model. -/
noncomputable def fuzzedInterval (p : Params) (fz : ℕ → ℕ) (s : ℝ) : ℕ :=
  if p.enable_fuzz then min p.maximum_interval (max 1 (fz (nextIntervalRaw p s)))
  else nextIntervalRaw p s

/-- Modelled from the spec: successful-recall stability growth (§4.1) —
stability grows, magnitude larger for Easy (bonus `w16`), smaller for Hard
(penalty `w15`), driven by difficulty and retrievability. -/
noncomputable def stabilityAfterRecall (p : Params) (s d r : ℝ) (g : Rating) : ℝ :=
  s * (1 + Real.exp (W p 8) * (11 - d) * s ^ (-(W p 9)) *
    (Real.exp (W p 10 * (1 - r)) - 1) *
    (if g = Rating.Hard then W p 15 else 1) *
    (if g = Rating.Easy then W p 16 else 1))

/-- Modelled from the spec: forgetting-branch stability decay (§4.1) —
stability shrinks via a decay formula driven by difficulty, current
stability and retrievability, never above the previous stability. -/
noncomputable def stabilityAfterForget (p : Params) (s d r : ℝ) : ℝ :=
  min (W p 11 * d ^ (-(W p 12)) * ((s + 1) ^ (W p 13) - 1) *
    Real.exp (W p 14 * (1 - r))) s

/-- Modelled from the spec: the numeric contract of §4.1 — stability never
goes non-positive nor unboundedly large regardless of input history. -/
noncomputable def clampS (x : ℝ) : ℝ := min 36500 (max 0.01 x)

/-- Modelled from the spec: `nextStability` dispatch on the rating (§4.1),
success branch for Hard/Good/Easy, forgetting branch for Again. -/
noncomputable def nextStability (p : Params) (s d r : ℝ) (g : Rating) : ℝ :=
  clampS (if g = Rating.Again then stabilityAfterForget p s d r
          else stabilityAfterRecall p s d r g)

/-- Elapsed whole days since the last review (`now - last_review` floored,
0 if no prior review, 0 on an early review), §3. -/
noncomputable def elapsedDays (c : Card) (now : ℝ) : ℕ :=
  match c.last_review with
  | none => 0
  | some lr => (⌊now - lr⌋).toNat

/-- Per-rating candidate stability: initial stability for a New card,
otherwise the `nextStability` update at the card's retrievability. -/
noncomputable def nextStabilityOf (p : Params) (c : Card) (now : ℝ) (g : Rating) : ℝ :=
  match c.state with
  | CardState.New => initStability p g
  | _ => nextStability p c.stability c.difficulty
      (retrievability c.stability (elapsedDays c now : ℝ)) g

/-- Per-rating candidate difficulty: initial difficulty for a New card,
otherwise the `nextDifficulty` update. -/
noncomputable def nextDifficultyOf (p : Params) (c : Card) (g : Rating) : ℝ :=
  match c.state with
  | CardState.New => initDifficulty p g
  | _ => nextDifficulty p c.difficulty g

/-- Modelled from the spec: per-rating raw interval.  A lapse from Review
(rating Again) restarts on a short sub-day relearning step, hence 0 whole
days (§4.2, §8); every other transition schedules through
`nextInterval` on the candidate stability (short-term steps are disabled
in both of the repository's call sites). -/
noncomputable def rawInterval (p : Params) (fz : ℕ → ℕ) (c : Card) (now : ℝ)
    (g : Rating) : ℕ :=
  match c.state, g with
  | CardState.Review, Rating.Again => 0
  | _, _ => fuzzedInterval p fz (nextStabilityOf p c now g)

/-- Modelled from the spec: the scheduler adjusts the four candidate
intervals so that the monotonic reward ordering of §8 holds, pre- or
post-fuzz, within the interval bounds (§4.1): Again ≤ Hard < Good < Easy. -/
def enforceOrder (M a h g e : ℕ) : ℕ × ℕ × ℕ × ℕ :=
  let e' := max 3 (min e M)
  let g' := max 2 (min g (e' - 1))
  let h' := max 1 (min h (g' - 1))
  (min a h', h', g', e')

/-- The four candidate intervals of `repeat`, ordered across ratings. -/
noncomputable def orderedIntervals (p : Params) (fz : ℕ → ℕ) (c : Card)
    (now : ℝ) : ℕ × ℕ × ℕ × ℕ :=
  enforceOrder p.maximum_interval
    (rawInterval p fz c now Rating.Again)
    (rawInterval p fz c now Rating.Hard)
    (rawInterval p fz c now Rating.Good)
    (rawInterval p fz c now Rating.Easy)

/-- The candidate interval committed for one rating. -/
noncomputable def intervalFor (p : Params) (fz : ℕ → ℕ) (c : Card) (now : ℝ) :
    Rating → ℕ :=
  fun g =>
    match g with
    | Rating.Again => (orderedIntervals p fz c now).1
    | Rating.Hard => (orderedIntervals p fz c now).2.1
    | Rating.Good => (orderedIntervals p fz c now).2.2.1
    | Rating.Easy => (orderedIntervals p fz c now).2.2.2

/-- Modelled from the spec: the state machine of §4.2 with short-term steps
disabled (both call sites pass `enable_short_term: false`): New transitions
to Learning on Again/Hard/Good and straight to Review on Easy;
Learning/Relearning stay put on Again and promote to Review otherwise;
Review lapses to Relearning on Again and stays in Review otherwise. -/
def nextState : CardState → Rating → CardState
  | CardState.New, Rating.Easy => CardState.Review
  | CardState.New, _ => CardState.Learning
  | CardState.Learning, Rating.Again => CardState.Learning
  | CardState.Learning, _ => CardState.Review
  | CardState.Review, Rating.Again => CardState.Relearning
  | CardState.Review, _ => CardState.Review
  | CardState.Relearning, Rating.Again => CardState.Relearning
  | CardState.Relearning, _ => CardState.Review

/-- Modelled from the spec: the short sub-day relearning step a lapsed
card is due after (§8: "a short (sub-day) relearning interval"). -/
noncomputable def relearnStepDays : ℝ := 10 / 1440

/-- Whether this transition is a lapse: rating Again from state Review. -/
def isLapse (st : CardState) (g : Rating) : Bool :=
  match st, g with
  | CardState.Review, Rating.Again => true
  | _, _ => false

/-- Modelled from the spec: `repeat(card, now)` — one candidate next-Card
plus review log per rating (§4.2, §6), pure in the input card.  `fz` is
the fuzz jitter, a parameter of the model. -/
noncomputable def repeatOp (p : Params) (fz : ℕ → ℕ) (c : Card) (now : ℝ)
    (g : Rating) : RecordLogItem :=
  let i := intervalFor p fz c now g
  let s' := nextStabilityOf p c now g
  let d' := nextDifficultyOf p c g
  let lapse := isLapse c.state g
  { card :=
      { due := if lapse then now + relearnStepDays else now + (i : ℝ)
        stability := s'
        difficulty := d'
        elapsed_days := elapsedDays c now
        scheduled_days := i
        reps := c.reps + 1
        lapses := c.lapses + (if lapse then 1 else 0)
        state := nextState c.state g
        last_review := some now
        learning_steps := 0 }
    log :=
      { rating := g
        state := c.state
        due := c.due
        stability := c.stability
        difficulty := c.difficulty
        elapsed_days := elapsedDays c now
        scheduled_days := i
        review := now } }

/-- Errors the review pipeline can signal. -/
inductive FailKind
  | invalidRating
  | notFound
  | updateFailed
deriving DecidableEq

/-- The handler's rating-to-enum switch
(flashcard-review/index.ts lines 160-167). -/
def ratingOfInt : ℤ → Option Rating
  | 1 => some Rating.Again
  | 2 => some Rating.Hard
  | 3 => some Rating.Good
  | 4 => some Rating.Easy
  | _ => none

/-- Numeric rating value sent over the wire for a rating. -/
def ratingInt (g : Rating) : ℤ := (gradeNat g : ℤ)

/-- The operation `review(card, now, rating)`: calls `repeat` and selects the branch
matching the rating, signalling `InvalidRating` outside {1,2,3,4} — the
composition performed by the handler (lines 147-181). -/
noncomputable def reviewOp (p : Params) (fz : ℕ → ℕ) (c : Card) (now : ℝ)
    (r : ℤ) : Except FailKind RecordLogItem :=
  match ratingOfInt r with
  | some g => Except.ok (repeatOp p fz c now g)
  | none => Except.error FailKind.invalidRating

/-! Conversion layer of `flashcard-review/index.ts` (in the repository's
sources): a persisted flashcard row and its reconstruction as an engine
card. -/

/-- The FSRS-relevant columns of a persisted `flashcards` row
(`FlashcardData`, lines 16-33); every FSRS field is optional in the row.
Timestamps are days since the epoch, as in `Card`. -/
structure FlashcardRow where
  state : Option String
  due : Option ℝ
  stability : Option ℝ
  difficulty : Option ℝ
  elapsed_days : Option ℕ
  scheduled_days : Option ℕ
  reps : Option ℕ
  lapses : Option ℕ
  last_review : Option ℝ
  learning_steps : Option ℕ

/-- The empty string. -/
def emptyStr : String := ""

/-- JavaScript truthiness test of line 37: `!flashcard.state` is true for
an absent state and for the empty string. -/
def stateMissing : Option String → Bool
  | none => true
  | some s => s == emptyStr

/-- JavaScript `x || d` on an optional number: an absent value and the
(falsy) value 0 both fall back to the default. -/
noncomputable def orDefault (x : Option ℝ) (d : ℝ) : ℝ :=
  match x with
  | none => d
  | some v => if v = 0 then d else v

/-- The state-string decoding of lines 51-53: `'NEW' ? 0 : 'LEARNING' ? 1 :
'REVIEW' ? 2 : 3` — everything else becomes 3 (RELEARNING). -/
def stateOfString (s : String) : CardState :=
  if s = "NEW" then CardState.New
  else if s = "LEARNING" then CardState.Learning
  else if s = "REVIEW" then CardState.Review
  else CardState.Relearning

/-- Modelled from the spec: `createEmptyCard` of the external library —
a card "created as New (default stability 0.4, difficulty 5.0)" (§3) at
the given due time, with no review history. -/
noncomputable def createEmptyCard (due : ℝ) : Card :=
  { due := due
    stability := 0.4
    difficulty := 5.0
    elapsed_days := 0
    scheduled_days := 0
    reps := 0
    lapses := 0
    state := CardState.New
    last_review := none
    learning_steps := 0 }

/-- The function `dbToCard` (lines 36-57): convert a database flashcard row to an
engine card.  An absent or `'NEW'` state yields a fresh empty card at the
stored due time (or `now`); otherwise the card is reconstructed field by
field with JavaScript `||` defaults.  The impure `new Date()` is the
explicit `now` argument. -/
noncomputable def dbToCard (now : ℝ) (f : FlashcardRow) : Card :=
  if stateMissing f.state || (f.state.getD emptyStr == "NEW") then
    createEmptyCard (f.due.getD now)
  else
    { due := f.due.getD now
      stability := orDefault f.stability 0.4
      difficulty := orDefault f.difficulty 5.0
      elapsed_days := f.elapsed_days.getD 0
      scheduled_days := f.scheduled_days.getD 0
      reps := f.reps.getD 0
      lapses := f.lapses.getD 0
      state := stateOfString (f.state.getD emptyStr)
      last_review := f.last_review
      learning_steps := f.learning_steps.getD 0 }

/-- Numeric encoding of a card state, as the ts-fsrs `State` enum. -/
def stateNum : CardState → ℤ
  | CardState.New => 0
  | CardState.Learning => 1
  | CardState.Review => 2
  | CardState.Relearning => 3

/-- The function `stateToString` (lines 60-68): convert a ts-fsrs state number to its
string, with every unrecognized number defaulting to `'NEW'`. -/
def stateToString : ℤ → String
  | 0 => "NEW"
  | 1 => "LEARNING"
  | 2 => "REVIEW"
  | 3 => "RELEARNING"
  | _ => "NEW"

/-! The review request handler of `flashcard-review/index.ts` (the
`Deno.serve` body), modelled as a pure function from the request and the
persisted state to the new persisted state and the response. -/

/-- The review request body (`ReviewRequest`, lines 10-14); the rating
arrives as an arbitrary integer to be validated. -/
structure ReviewRequest where
  rating : ℤ
  review_duration_ms : Option ℕ

/-- A row of the `flashcard_reviews` audit table, as inserted by
lines 214-230. -/
structure ReviewLogRow where
  rating : ℤ
  state_before : String
  state_after : String
  stability_before : ℝ
  stability_after : ℝ
  difficulty_before : ℝ
  difficulty_after : ℝ
  elapsed_days : ℕ
  scheduled_days : ℕ
  review_duration_ms : Option ℕ
  created_at : ℝ

/-- The persisted state the handler touches, viewed at the requested
flashcard id: the card row (absent when the fetch finds nothing) and the
append-only review-log table.  The two flags inject storage failures of
the update (lines 208-211) and of the log insert (lines 232-235). -/
structure Db where
  card : Option FlashcardRow
  logs : List ReviewLogRow
  updateFails : Bool
  insertFails : Bool

/-- The success payload of the handler's JSON response (lines 237-249). -/
structure SuccessPayload where
  next_review : ℝ
  interval_days : ℕ
  card_state : String
  stability : ℝ
  difficulty : ℝ
  reps : ℕ
  lapses : ℕ

/-- The handler's response: success payload or a 400-error informing the
caller the rating was not recorded. -/
inductive HandlerResult
  | success (payload : SuccessPayload)
  | failure (k : FailKind)

/-- Whether a handler result is a success response. -/
def HandlerResult.isSuccess : HandlerResult → Bool
  | HandlerResult.success _ => true
  | HandlerResult.failure _ => false

/-- The flashcards-table update of lines 191-206: every FSRS column is
overwritten from the updated card. -/
noncomputable def rowOfCard (c : Card) : FlashcardRow :=
  { state := some (stateToString (stateNum c.state))
    due := some c.due
    stability := some c.stability
    difficulty := some c.difficulty
    elapsed_days := some c.elapsed_days
    scheduled_days := some c.scheduled_days
    reps := some c.reps
    lapses := some c.lapses
    last_review := c.last_review
    learning_steps := some c.learning_steps }

/-- The `flashcard_reviews` insert payload of lines 214-230, built from
the review log and the updated card. -/
noncomputable def mkLogRow (req : ReviewRequest) (rl : RecordLogItem)
    (now : ℝ) : ReviewLogRow :=
  { rating := req.rating
    state_before := stateToString (stateNum rl.log.state)
    state_after := stateToString (stateNum rl.card.state)
    stability_before := rl.log.stability
    stability_after := rl.card.stability
    difficulty_before := rl.log.difficulty
    difficulty_after := rl.card.difficulty
    elapsed_days := rl.log.elapsed_days
    scheduled_days := rl.log.scheduled_days
    review_duration_ms := req.review_duration_ms
    created_at := now }

/-- The success response payload of lines 237-249. -/
noncomputable def mkPayload (c : Card) : SuccessPayload :=
  { next_review := c.due
    interval_days := c.scheduled_days
    card_state := stateToString (stateNum c.state)
    stability := c.stability
    difficulty := c.difficulty
    reps := c.reps
    lapses := c.lapses }

/-- The review handler pipeline (`Deno.serve` body, lines 93-249), in the
source's order: validate the rating (lines 96-99), fetch the card
(lines 102-111), reconstruct it (`dbToCard`), run the scheduling engine
`eng` (an explicit parameter standing for `f.repeat` plus the rating
switch), persist the updated card (lines 191-211, aborting on an update
error), then insert the review log (lines 214-235, deliberately NOT
failing the request when the insert fails). -/
noncomputable def handleReview (eng : Card → ℝ → Rating → RecordLogItem)
    (db : Db) (req : ReviewRequest) (now : ℝ) : Db × HandlerResult :=
  if req.rating = 1 ∨ req.rating = 2 ∨ req.rating = 3 ∨ req.rating = 4 then
    match db.card with
    | none => (db, HandlerResult.failure FailKind.notFound)
    | some fc =>
      match ratingOfInt req.rating with
      | none => (db, HandlerResult.failure FailKind.invalidRating)
      | some g =>
        let rl := eng (dbToCard now fc) now g
        if db.updateFails then (db, HandlerResult.failure FailKind.updateFailed)
        else
          let db1 : Db := { db with card := some (rowOfCard rl.card) }
          if db.insertFails then (db1, HandlerResult.success (mkPayload rl.card))
          else ({ db1 with logs := db.logs ++ [mkLogRow req rl now] },
            HandlerResult.success (mkPayload rl.card))
  else (db, HandlerResult.failure FailKind.invalidRating)

/-! The preview-intervals handler of `flashcard-due/index.ts`
(lines 185-262): reconstruct the card (lines 206-225, textually identical
to `dbToCard`), call `repeat`, and project each candidate's interval and
due date (lines 236-256). -/

/-- The inline card reconstruction of the preview handler
(flashcard-due/index.ts lines 206-225); the code duplicates `dbToCard`
verbatim. -/
noncomputable def previewCard (now : ℝ) (f : FlashcardRow) : Card :=
  if stateMissing f.state || (f.state.getD emptyStr == "NEW") then
    createEmptyCard (f.due.getD now)
  else
    { due := f.due.getD now
      stability := orDefault f.stability 0.4
      difficulty := orDefault f.difficulty 5.0
      elapsed_days := f.elapsed_days.getD 0
      scheduled_days := f.scheduled_days.getD 0
      reps := f.reps.getD 0
      lapses := f.lapses.getD 0
      state := stateOfString (f.state.getD emptyStr)
      last_review := f.last_review
      learning_steps := f.learning_steps.getD 0 }

/-- One per-rating preview entry (`interval_days` and `due`,
lines 239-256). -/
structure PreviewEntry where
  interval_days : ℕ
  due : ℝ

/-- The preview projection (lines 236-256): run `repeat` on the
reconstructed card at `now` and read off each candidate's scheduled days
and due date. -/
noncomputable def previewHandler (p : Params) (fz : ℕ → ℕ) (f : FlashcardRow)
    (now : ℝ) (g : Rating) : PreviewEntry :=
  { interval_days := (repeatOp p fz (previewCard now f) now g).card.scheduled_days
    due := (repeatOp p fz (previewCard now f) now g).card.due }

/-! Helper lemmas. -/

theorem clampD_bounds (x : ℝ) : 1 ≤ clampD x ∧ clampD x ≤ 10 := by
  unfold clampD
  constructor
  · exact le_min (by norm_num) (le_max_left 1 x)
  · exact min_le_left 10 _

theorem clampS_pos (x : ℝ) : 0 < clampS x := by
  unfold clampS
  exact lt_min (by norm_num) (lt_of_lt_of_le (by norm_num) (le_max_left 0.01 x))

theorem initStability_pos (p : Params) (g : Rating) : 0 < initStability p g :=
  lt_of_lt_of_le (by norm_num) (le_max_right (W p (gradeNat g - 1)) 0.1)

theorem enforceOrder_spec (M a h g e : ℕ) :
    (enforceOrder M a h g e).1 ≤ (enforceOrder M a h g e).2.1 ∧
    (enforceOrder M a h g e).2.1 < (enforceOrder M a h g e).2.2.1 ∧
    (enforceOrder M a h g e).2.2.1 < (enforceOrder M a h g e).2.2.2 ∧
    (a = 0 → (enforceOrder M a h g e).1 = 0) ∧
    1 ≤ (enforceOrder M a h g e).2.1 := by
  simp only [enforceOrder]
  omega

theorem fuzzedInterval_bounds (fz : ℕ → ℕ) (s : ℝ) :
    1 ≤ fuzzedInterval reviewParams fz s ∧
    fuzzedInterval reviewParams fz s ≤ reviewParams.maximum_interval := by
  have hf : reviewParams.enable_fuzz = true := rfl
  simp only [fuzzedInterval, hf, if_true, reviewParams]
  omega

theorem repeat_scheduled_days (p : Params) (fz : ℕ → ℕ) (c : Card) (now : ℝ)
    (g : Rating) :
    (repeatOp p fz c now g).card.scheduled_days = intervalFor p fz c now g := rfl

/-- C6: the lapses counter of the resulting card increments by exactly 1
if and only if the rating is Again and the input card's state is Review;
in every other case (including Again from New, Learning or Relearning)
lapses is unchanged. -/
theorem C6_lapse_counting (p : Params) (fz : ℕ → ℕ) (c : Card) (now : ℝ)
    (g : Rating) :
    (repeatOp p fz c now g).card.lapses =
      c.lapses + (if c.state = CardState.Review ∧ g = Rating.Again then 1 else 0) := by
  have hl : (repeatOp p fz c now g).card.lapses =
      c.lapses + (if isLapse c.state g then 1 else 0) := rfl
  rw [hl]
  cases hc : c.state <;> cases hg : g <;> simp [isLapse]

/-- C5: after any single review, for every input card (arbitrary stored
stability and difficulty, including extreme values) and every rating, the
resulting difficulty lies within the configured bounds [1, 10] and the
resulting stability is strictly positive.  (In this real-valued model all
outputs are finite by construction.) -/
theorem C5_clamp_invariants (p : Params) (fz : ℕ → ℕ) (c : Card) (now : ℝ)
    (g : Rating) :
    1 ≤ (repeatOp p fz c now g).card.difficulty ∧
    (repeatOp p fz c now g).card.difficulty ≤ 10 ∧
    0 < (repeatOp p fz c now g).card.stability := by
  have hd : (repeatOp p fz c now g).card.difficulty = nextDifficultyOf p c g := rfl
  have hs : (repeatOp p fz c now g).card.stability = nextStabilityOf p c now g := rfl
  rw [hd, hs]
  refine ⟨?_, ?_, ?_⟩
  · unfold nextDifficultyOf
    cases c.state <;> exact (clampD_bounds _).1
  · unfold nextDifficultyOf
    cases c.state <;> exact (clampD_bounds _).2
  · unfold nextStabilityOf
    cases c.state <;>
      first
        | exact initStability_pos p g
        | exact clampS_pos _

/-- C1: for every card, review time and rating in {1,2,3,4}, the card
committed by the review operation equals the candidate produced by
`repeat` for that rating — the handler merely selects a branch of
`repeat`'s output. -/
theorem C1_round_trip_selection (p : Params) (fz : ℕ → ℕ) (c : Card)
    (now : ℝ) (g : Rating) :
    Except.map RecordLogItem.card (reviewOp p fz c now (ratingInt g)) =
      Except.ok ((repeatOp p fz c now g).card) := by
  cases g <;> rfl

/-- C4: a review request whose rating lies outside {1,2,3,4} is rejected
with `InvalidRating` and the persisted state is returned unchanged; the
result does not depend on the scheduling engine `eng`, which is never
invoked on this path. -/
theorem C4_invalid_rating_rejected (eng : Card → ℝ → Rating → RecordLogItem)
    (db : Db) (req : ReviewRequest) (now : ℝ)
    (h : ¬(req.rating = 1 ∨ req.rating = 2 ∨ req.rating = 3 ∨ req.rating = 4)) :
    handleReview eng db req now = (db, HandlerResult.failure FailKind.invalidRating) := by
  unfold handleReview
  exact if_neg h

/-- A concrete scheduling engine instance (the review path's parameters
with an identity fuzz jitter), used to instantiate handler theorems. -/
noncomputable def engModel : Card → ℝ → Rating → RecordLogItem :=
  fun c t g => repeatOp reviewParams (fun n => n) c t g

/-- A persisted row with no FSRS fields set. -/
def rowEmpty : FlashcardRow :=
  ⟨none, none, none, none, none, none, none, none, none, none⟩

/-- Witness for C4: rating 5 at a concrete store is rejected with the
store unchanged. -/
theorem C4_invalid_rating_rejected_witness :
    handleReview engModel ⟨some rowEmpty, [], false, false⟩ ⟨5, none⟩ 0 =
      (⟨some rowEmpty, [], false, false⟩,
        HandlerResult.failure FailKind.invalidRating) :=
  C4_invalid_rating_rejected engModel ⟨some rowEmpty, [], false, false⟩ ⟨5, none⟩ 0
    (by decide)

/-- C2: for any fixed card and review time (and any fuzz jitter), the four
candidate `scheduled_days` from `repeat` under the review path's
parameters satisfy Again ≤ Hard < Good < Easy, with Again < Hard strict
for Review-state cards (in particular those with positive elapsed days);
and the fuzz step never moves an interval outside
`[1, maximumInterval]`. -/
theorem C2_monotonic_reward_ordering (fz : ℕ → ℕ) (c : Card) (now : ℝ) :
    ((repeatOp reviewParams fz c now Rating.Again).card.scheduled_days ≤
        (repeatOp reviewParams fz c now Rating.Hard).card.scheduled_days ∧
      (repeatOp reviewParams fz c now Rating.Hard).card.scheduled_days <
        (repeatOp reviewParams fz c now Rating.Good).card.scheduled_days ∧
      (repeatOp reviewParams fz c now Rating.Good).card.scheduled_days <
        (repeatOp reviewParams fz c now Rating.Easy).card.scheduled_days) ∧
    (c.state = CardState.Review → 0 < elapsedDays c now →
      (repeatOp reviewParams fz c now Rating.Again).card.scheduled_days <
        (repeatOp reviewParams fz c now Rating.Hard).card.scheduled_days) ∧
    (∀ s : ℝ, 1 ≤ fuzzedInterval reviewParams fz s ∧
      fuzzedInterval reviewParams fz s ≤ reviewParams.maximum_interval) := by
  have ha := repeat_scheduled_days reviewParams fz c now Rating.Again
  have hh := repeat_scheduled_days reviewParams fz c now Rating.Hard
  have hg := repeat_scheduled_days reviewParams fz c now Rating.Good
  have he := repeat_scheduled_days reviewParams fz c now Rating.Easy
  rw [ha, hh, hg, he]
  have hspec := enforceOrder_spec reviewParams.maximum_interval
    (rawInterval reviewParams fz c now Rating.Again)
    (rawInterval reviewParams fz c now Rating.Hard)
    (rawInterval reviewParams fz c now Rating.Good)
    (rawInterval reviewParams fz c now Rating.Easy)
  have hi : ∀ g, intervalFor reviewParams fz c now g =
      (match g with
        | Rating.Again => (orderedIntervals reviewParams fz c now).1
        | Rating.Hard => (orderedIntervals reviewParams fz c now).2.1
        | Rating.Good => (orderedIntervals reviewParams fz c now).2.2.1
        | Rating.Easy => (orderedIntervals reviewParams fz c now).2.2.2) :=
    fun g => rfl
  rw [hi Rating.Again, hi Rating.Hard, hi Rating.Good, hi Rating.Easy]
  unfold orderedIntervals
  refine ⟨⟨hspec.1, hspec.2.1, hspec.2.2.1⟩, ?_, fun s => fuzzedInterval_bounds fz s⟩
  intro hrev _
  have h0 : rawInterval reviewParams fz c now Rating.Again = 0 := by
    unfold rawInterval
    rw [hrev]
  have hz := hspec.2.2.2.1 h0
  rw [hz]
  exact hspec.2.2.2.2

/-- A concrete Review-state card, twenty days past its last review at
time 20. -/
def cardReview : Card :=
  { due := 10
    stability := 10
    difficulty := 5
    elapsed_days := 0
    scheduled_days := 10
    reps := 3
    lapses := 0
    state := CardState.Review
    last_review := some 0
    learning_steps := 0 }

/-- Witness for C2: at the concrete Review-state card with 20 elapsed
days, the Again candidate is strictly below the Hard candidate. -/
theorem C2_monotonic_reward_ordering_witness :
    (repeatOp reviewParams (fun n => n) cardReview 20 Rating.Again).card.scheduled_days <
      (repeatOp reviewParams (fun n => n) cardReview 20 Rating.Hard).card.scheduled_days :=
  (C2_monotonic_reward_ordering (fun n => n) cardReview 20).2.1 rfl (by
    show 0 < elapsedDays cardReview 20
    unfold elapsedDays cardReview
    norm_num)

/-- An unrecognized persisted state value. -/
def corruptState : String := "CORRUPT"

/-- A persisted row whose state column holds an unrecognized value. -/
def rowCorrupt : FlashcardRow :=
  ⟨some corruptState, none, none, none, none, none, none, none, none, none⟩

/-- Counterexample for C3: a persisted flashcard whose state is the
unrecognized value CORRUPT is not rejected — the conversion layer is
total and silently maps it to Relearning, and `stateToString` likewise
maps the unrecognized state number 7 to NEW; no `UnknownCardState`
failure path exists in the code. -/
theorem C3_counterexample :
    (dbToCard 0 rowCorrupt).state = CardState.Relearning ∧
      stateToString 7 = "NEW" :=
  ⟨rfl, rfl⟩

/-- C3 (amended): the conversion layer never fails: `dbToCard` maps every
non-empty state other than NEW, LEARNING and REVIEW — recognized
RELEARNING and unrecognized garbage alike — to Relearning, and
`stateToString` maps every integer outside {0,1,2,3} to NEW. -/
theorem C3_amended_silent_coercion (now : ℝ) (f : FlashcardRow) (s : String)
    (hs : f.state = some s) (h0 : s ≠ emptyStr) (h1 : s ≠ "NEW")
    (h2 : s ≠ "LEARNING") (h3 : s ≠ "REVIEW") :
    (dbToCard now f).state = CardState.Relearning ∧
    (∀ n : ℤ, n ≠ 0 → n ≠ 1 → n ≠ 2 → n ≠ 3 → stateToString n = "NEW") := by
  constructor
  · have hmiss : stateMissing f.state = false := by
      rw [hs]
      simpa [stateMissing] using h0
    have hnew : (f.state.getD emptyStr == "NEW") = false := by
      rw [hs]
      simpa using h1
    unfold dbToCard
    rw [hmiss, hnew]
    simp only [Bool.or_self, Bool.false_eq_true, if_false]
    rw [hs]
    simp only [Option.getD_some]
    unfold stateOfString
    rw [if_neg h1, if_neg h2, if_neg h3]
  · intro n hn0 hn1 hn2 hn3
    unfold stateToString
    split
    · exact absurd rfl hn0
    · exact absurd rfl hn1
    · exact absurd rfl hn2
    · exact absurd rfl hn3
    · rfl

/-- Another unrecognized persisted state value. -/
def garbageState : String := "GARBAGE"

/-- A persisted row whose state column holds the value GARBAGE. -/
def rowGarbage : FlashcardRow :=
  ⟨some garbageState, none, none, none, none, none, none, none, none, none⟩

/-- Witness for the amended C3: the GARBAGE state maps to Relearning. -/
theorem C3_amended_silent_coercion_witness :
    (dbToCard 5 rowGarbage).state = CardState.Relearning :=
  (C3_amended_silent_coercion 5 rowGarbage garbageState rfl (by decide)
    (by decide) (by decide) (by decide)).1

/-- Counterexample for C9: the review code path and the preview code path
do not run under one and the same parameter set — their weight vectors
differ already at index 3 (the review handler passes 15.4722 explicitly,
while the preview handler inherits the library default 15.69105). -/
theorem C9_counterexample : W reviewParams 3 ≠ W previewParams 3 := by
  show reviewW.getD 3 0 ≠ defaultW.getD 3 0
  unfold reviewW defaultW
  norm_num [List.getD]

/-- C9 (amended): the preview endpoint is a pure, read-only projection of
`repeat`: under any single parameter set supplied to both code paths, for
every persisted flashcard, review time and rating, the preview's
`interval_days` and `due` equal the `scheduled_days` and `due` of the
candidate that the review path's `repeat` computes on the identically
reconstructed card — but the two code paths as written instantiate
different weight vectors, so their parameter sets are not the same. -/
theorem C9_amended_preview_projection (p : Params) (fz : ℕ → ℕ)
    (f : FlashcardRow) (now : ℝ) (g : Rating) :
    (previewHandler p fz f now g).interval_days =
      (repeatOp p fz (dbToCard now f) now g).card.scheduled_days ∧
    (previewHandler p fz f now g).due =
      (repeatOp p fz (dbToCard now f) now g).card.due :=
  ⟨rfl, rfl⟩

theorem orDefault_none (d : ℝ) : orDefault none d = d := rfl

theorem orDefault_some_zero (d : ℝ) : orDefault (some 0) d = d := if_pos rfl

theorem orDefault_ne_zero (x : Option ℝ) (d : ℝ) (hd : d ≠ 0) :
    orDefault x d ≠ 0 := by
  match x with
  | none => exact hd
  | some v =>
    show (if v = 0 then d else v) ≠ 0
    by_cases hv : v = 0
    · rw [if_pos hv]
      exact hd
    · rw [if_neg hv]
      exact hv

theorem dbToCard_of_state (now : ℝ) (f : FlashcardRow) (s : String)
    (hs : f.state = some s) (h0 : s ≠ emptyStr) (h1 : s ≠ "NEW") :
    dbToCard now f =
      { due := f.due.getD now
        stability := orDefault f.stability 0.4
        difficulty := orDefault f.difficulty 5.0
        elapsed_days := f.elapsed_days.getD 0
        scheduled_days := f.scheduled_days.getD 0
        reps := f.reps.getD 0
        lapses := f.lapses.getD 0
        state := stateOfString s
        last_review := f.last_review
        learning_steps := f.learning_steps.getD 0 } := by
  have hmiss : stateMissing f.state = false := by
    rw [hs]
    simpa [stateMissing] using h0
  have hnew : (f.state.getD emptyStr == "NEW") = false := by
    rw [hs]
    simpa using h1
  unfold dbToCard
  rw [hmiss, hnew]
  simp only [Bool.or_self, Bool.false_eq_true, if_false, hs, Option.getD_some]

theorem dbToCard_stability_ne_zero (now : ℝ) (f : FlashcardRow) :
    (dbToCard now f).stability ≠ 0 := by
  unfold dbToCard
  split
  · show (createEmptyCard _).stability ≠ 0
    norm_num [createEmptyCard]
  · exact orDefault_ne_zero _ _ (by norm_num)

theorem dbToCard_difficulty_ne_zero (now : ℝ) (f : FlashcardRow) :
    (dbToCard now f).difficulty ≠ 0 := by
  unfold dbToCard
  split
  · show (createEmptyCard _).difficulty ≠ 0
    norm_num [createEmptyCard]
  · exact orDefault_ne_zero _ _ (by norm_num)

/-- C10: reconstructing a persisted flashcard in a non-New state silently
substitutes defaults for absent or zero-valued fields — stability 0 or
null becomes 0.4, difficulty 0 or null becomes 5.0, the null counters
become 0 — so no persisted row ever converts to a card with stability 0
or difficulty 0; and a row with no state field at all becomes a fresh
empty card at its stored due time, discarding every stored FSRS field. -/
theorem C10_conversion_defaults (now : ℝ) (f : FlashcardRow) (s : String)
    (hs : f.state = some s) (h0 : s ≠ emptyStr) (h1 : s ≠ "NEW") :
    ((f.stability = none ∨ f.stability = some 0) →
      (dbToCard now f).stability = 0.4) ∧
    ((f.difficulty = none ∨ f.difficulty = some 0) →
      (dbToCard now f).difficulty = 5.0) ∧
    (f.elapsed_days = none → (dbToCard now f).elapsed_days = 0) ∧
    (f.scheduled_days = none → (dbToCard now f).scheduled_days = 0) ∧
    (f.reps = none → (dbToCard now f).reps = 0) ∧
    (f.lapses = none → (dbToCard now f).lapses = 0) ∧
    (f.learning_steps = none → (dbToCard now f).learning_steps = 0) ∧
    (∀ (now2 : ℝ) (f2 : FlashcardRow),
      (dbToCard now2 f2).stability ≠ 0 ∧ (dbToCard now2 f2).difficulty ≠ 0) ∧
    (∀ (now2 : ℝ) (f2 : FlashcardRow), f2.state = none →
      dbToCard now2 f2 = createEmptyCard (f2.due.getD now2)) := by
  have hb := dbToCard_of_state now f s hs h0 h1
  refine ⟨?_, ?_, ?_, ?_, ?_, ?_, ?_, ?_, ?_⟩
  · rintro (h | h) <;> rw [hb] <;> rw [h]
    · exact orDefault_none 0.4
    · exact orDefault_some_zero 0.4
  · rintro (h | h) <;> rw [hb] <;> rw [h]
    · exact orDefault_none 5.0
    · exact orDefault_some_zero 5.0
  · intro h
    rw [hb, h]
    rfl
  · intro h
    rw [hb, h]
    rfl
  · intro h
    rw [hb, h]
    rfl
  · intro h
    rw [hb, h]
    rfl
  · intro h
    rw [hb, h]
    rfl
  · exact fun now2 f2 =>
      ⟨dbToCard_stability_ne_zero now2 f2, dbToCard_difficulty_ne_zero now2 f2⟩
  · intro now2 f2 h
    unfold dbToCard
    rw [h]
    rfl

/-- The LEARNING state string. -/
def learningStateStr : String := "LEARNING"

/-- A persisted LEARNING-state row storing stability 0 and difficulty 0,
with every counter absent. -/
def rowHalf : FlashcardRow :=
  ⟨some learningStateStr, none, some 0, some 0, none, none, none, none, none, none⟩

/-- Witness for C10: the zero-valued stored stability and difficulty come
back as the 0.4 and 5.0 defaults, and the absent reps counter as 0. -/
theorem C10_conversion_defaults_witness :
    (dbToCard 0 rowHalf).stability = 0.4 ∧
    (dbToCard 0 rowHalf).difficulty = 5.0 ∧
    (dbToCard 0 rowHalf).reps = 0 :=
  ⟨(C10_conversion_defaults 0 rowHalf learningStateStr rfl (by decide)
      (by decide)).1 (Or.inr rfl),
   (C10_conversion_defaults 0 rowHalf learningStateStr rfl (by decide)
      (by decide)).2.1 (Or.inr rfl),
   (C10_conversion_defaults 0 rowHalf learningStateStr rfl (by decide)
      (by decide)).2.2.2.2.1 rfl⟩

/-- A persisted store whose review-log insert fails while the card update
succeeds. -/
def dbInsertFailing : Db := ⟨some rowEmpty, [], false, true⟩

/-- Counterexample for C8: when the review-log insert fails, the handler
still reports success (the card update stands) yet creates no ReviewLog
record — the card update and its log record do not occur atomically
together (the code explicitly chooses not to fail the request when
logging fails, lines 232-235). -/
theorem C8_counterexample :
    ((handleReview engModel dbInsertFailing ⟨3, none⟩ 0).2).isSuccess = true ∧
    (handleReview engModel dbInsertFailing ⟨3, none⟩ 0).1.logs = [] :=
  ⟨rfl, rfl⟩

/-- C8 (amended): a review whose card update fails leaves the persisted
state completely untouched and returns a failure response informing the
learner; a review that succeeds with a succeeding log insert appends
exactly one ReviewLog row; and in every outcome the handler only ever
appends to the log table, never mutating existing rows — but a failed log
insert is swallowed, so a successful card update may stand with no log
record and atomicity of the pair does not hold. -/
theorem C8_amended_update_and_log (eng : Card → ℝ → Rating → RecordLogItem)
    (db : Db) (req : ReviewRequest) (now : ℝ) (fc : FlashcardRow)
    (hv : req.rating = 1 ∨ req.rating = 2 ∨ req.rating = 3 ∨ req.rating = 4)
    (hc : db.card = some fc) :
    (db.updateFails = true →
      handleReview eng db req now =
        (db, HandlerResult.failure FailKind.updateFailed)) ∧
    (db.updateFails = false → db.insertFails = false →
      (∃ lr, (handleReview eng db req now).1.logs = db.logs ++ [lr]) ∧
      ((handleReview eng db req now).2).isSuccess = true) ∧
    (∃ t, (handleReview eng db req now).1.logs = db.logs ++ t) := by
  obtain ⟨g, hg⟩ : ∃ g, ratingOfInt req.rating = some g := by
    rcases hv with h | h | h | h <;> rw [h] <;> exact ⟨_, rfl⟩
  unfold handleReview
  rw [if_pos hv, hc, hg]
  refine ⟨fun hu => ?_, fun hu hi => ?_, ?_⟩
  · rw [hu]
    rfl
  · rw [hu, hi]
    exact ⟨⟨_, rfl⟩, rfl⟩
  · cases hu : db.updateFails
    · cases hi : db.insertFails
      · exact ⟨_, rfl⟩
      · exact ⟨[], (List.append_nil db.logs).symm⟩
    · exact ⟨[], (List.append_nil db.logs).symm⟩

/-- A persisted store where both the card update and the log insert
succeed. -/
def dbAllOk : Db := ⟨some rowEmpty, [], false, false⟩

/-- Witness for the amended C8: on the all-succeeding store, a Good
review returns success and appends exactly one log row. -/
theorem C8_amended_update_and_log_witness :
    (∃ lr, (handleReview engModel dbAllOk ⟨3, none⟩ 0).1.logs =
      dbAllOk.logs ++ [lr]) ∧
    ((handleReview engModel dbAllOk ⟨3, none⟩ 0).2).isSuccess = true :=
  (C8_amended_update_and_log engModel dbAllOk ⟨3, none⟩ 0 rowEmpty
    (by decide) rfl).2.1 rfl rfl

/-- C7: for all stability > 0 and elapsed days ≥ 0, retrievability lies in
(0, 1], equals 1 exactly at elapsed 0, is strictly decreasing in elapsed
days and monotonically increasing in stability. -/
theorem C7_retrievability_spec (s t : ℝ) (hs : 0 < s) (ht : 0 ≤ t) :
    (0 < retrievability s t ∧ retrievability s t ≤ 1) ∧
    retrievability s 0 = 1 ∧
    (∀ t2, t < t2 → retrievability s t2 < retrievability s t) ∧
    (∀ s2, s ≤ s2 → retrievability s t ≤ retrievability s2 t) := by
  have hX : ∀ u : ℝ, 0 ≤ u → (1 : ℝ) ≤ 1 + 19 / 81 * (u / s) := by
    intro u hu
    have h1 : (0 : ℝ) ≤ 19 / 81 * (u / s) := by positivity
    linarith
  have hsq : ∀ u : ℝ, 0 ≤ u → 0 < Real.sqrt (1 + 19 / 81 * (u / s)) := by
    intro u hu
    exact Real.sqrt_pos.mpr (by linarith [hX u hu])
  refine ⟨⟨?_, ?_⟩, ?_, ?_, ?_⟩
  · unfold retrievability
    exact one_div_pos.mpr (hsq t ht)
  · unfold retrievability
    rw [div_le_one (hsq t ht)]
    have h2 : Real.sqrt 1 ≤ Real.sqrt (1 + 19 / 81 * (t / s)) :=
      Real.sqrt_le_sqrt (hX t ht)
    rwa [Real.sqrt_one] at h2
  · unfold retrievability
    rw [zero_div, mul_zero, add_zero, Real.sqrt_one, div_one]
  · intro t2 h12
    have harg : 1 + 19 / 81 * (t / s) < 1 + 19 / 81 * (t2 / s) := by
      have hd : t / s < t2 / s := by gcongr
      linarith
    have hlt : Real.sqrt (1 + 19 / 81 * (t / s)) <
        Real.sqrt (1 + 19 / 81 * (t2 / s)) :=
      Real.sqrt_lt_sqrt (by linarith [hX t ht]) harg
    unfold retrievability
    exact one_div_lt_one_div_of_lt (hsq t ht) hlt
  · intro s2 hss
    have hs2 : 0 < s2 := lt_of_lt_of_le hs hss
    have harg : 1 + 19 / 81 * (t / s2) ≤ 1 + 19 / 81 * (t / s) := by
      have hd : t / s2 ≤ t / s := by gcongr
      linarith
    have hp2 : 0 < Real.sqrt (1 + 19 / 81 * (t / s2)) := by
      have h1 : (0 : ℝ) ≤ 19 / 81 * (t / s2) := by positivity
      exact Real.sqrt_pos.mpr (by linarith)
    unfold retrievability
    exact one_div_le_one_div_of_le hp2 (Real.sqrt_le_sqrt harg)

/-- Witness for C7: concrete evaluation at stability 1 and elapsed 0. -/
theorem C7_retrievability_spec_witness :
    retrievability 1 0 = 1 ∧ 0 < retrievability 1 0 :=
  ⟨(C7_retrievability_spec 1 0 one_pos le_rfl).2.1,
   (C7_retrievability_spec 1 0 one_pos le_rfl).1.1⟩

end TLApp
